import Mathlib

/-!
Shallow embedding of `onmt/modules/VariationalAttention.py`, the variational
attention unit.  Tensors are modelled as total real-valued functions of their
natural-number indices; an axis extent is passed explicitly wherever the code
sums over that axis.  Machine floats are modelled as real numbers; the `-inf`
written by `masked_fill_` is modelled by scores living in `EReal`, with the
extended exponential sending `⊥` to `0` exactly as IEEE `exp(-inf) = 0` does
under the softmax.  Randomness is injectable: the categorical sampler is a
function giving the drawn index per `(sample, batch, target)` cell, and the
Dirichlet sampler is a raw sample tensor.  Fallible code returns `Except Err`.
-/

noncomputable section

abbrev Tensor2 : Type := ℕ → ℕ → ℝ

abbrev Tensor3 : Type := ℕ → ℕ → ℕ → ℝ

abbrev Tensor4 : Type := ℕ → ℕ → ℕ → ℕ → ℝ

/-- Runtime failures of the embedded Python code: `aeq` size-mismatch
failures, `assert` failures, `raise Exception` for unsupported
distributions, reads of never-assigned local variables, calls with an
unexpected keyword argument, and attribute access on `None`. -/
inductive Err where
  | shapeMismatch
  | assertionError
  | unsupportedDist
  | unboundLocal
  | typeError
  | attributeError
  deriving DecidableEq

/-- Modelled from the spec: `onmt.Utils.sequence_mask` is imported by the
module but its source is not under `src/`.  Per the masking section of the
spec, given per-batch valid lengths it marks the valid source positions:
entry `(b, j)` is true iff `j < lengths b`. -/
def sequence_mask (lengths : ℕ → ℕ) : ℕ → ℕ → Bool :=
  fun b j => decide (j < lengths b)

/-- Modelled from the spec: the `Params` namedtuple from `onmt.Utils`
(DistributionParams in the spec data model) as supplied to `forward` for the
posterior: a distribution tag plus optional `alpha` and `log_alpha` tensors
of shape (batch, target_len, source_len). -/
structure ParamsIn where
  dist_type : String
  alpha : Option Tensor3
  log_alpha : Option Tensor3

/-- The `Params` bundle as rebuilt by the one-step exit of `forward`:
squeezed `alpha` (batch, source_len), squeezed `samples`
(n_samples, batch, source_len) and squeezed `sample_log_probs`
(n_samples, batch). -/
structure ParamsOut where
  dist_type : String
  alpha : Option Tensor2
  samples : Option Tensor3
  sample_log_probs : Option Tensor2

/-- The value returned by a completing (one-step) `forward` call:
`h_y` (n_samples, batch, dim), `h_c` (batch, dim), `c_align_vectors`
(batch, source_len), and the `DistInfo` pair `q`, `p`.  `hyK` records the
extent of the leading (pseudo-)sample axis of `h_y` as produced by the
`view` in sample mode and the `permute` in enum mode. -/
structure Output where
  h_y : Tensor3
  h_c : Tensor2
  c_align_vectors : Tensor2
  dist_q : Option ParamsOut
  dist_p : ParamsOut
  hyK : ℕ

/-- The configuration fixed by `VariationalAttention.__init__`: feature
dimension, the two distribution-type strings (the posterior one is stored
under the misspelled attribute `q_dist_tyqe`, exactly as in the source),
the prior-sampling flag, the score nonlinearity, the Monte-Carlo sample
count, the sampling mode string, and the two learned projections
`linear_in` (dim x dim) and `linear_out` (dim x 2 dim), both bias-free. -/
structure Cfg where
  dim : ℕ
  p_dist_type : String
  q_dist_tyqe : String
  use_prior : Bool
  scoresF : ℝ → ℝ
  n_samples : ℕ
  mode : String
  linear_in : Tensor2
  linear_out : Tensor2

/-- `VariationalAttention.__init__`: note the argument `q_dist_type` is
stored into the misspelled field `q_dist_tyqe` (source line 83). -/
def initVA (dim : ℕ) (p_dist_type q_dist_type : String) (use_prior : Bool)
    (scoresF : ℝ → ℝ) (n_samples : ℕ) (mode : String)
    (linear_in linear_out : Tensor2) : Cfg :=
  { dim := dim
    p_dist_type := p_dist_type
    q_dist_tyqe := q_dist_type
    use_prior := use_prior
    scoresF := scoresF
    n_samples := n_samples
    mode := mode
    linear_in := linear_in
    linear_out := linear_out }

/-- `VariationalAttention.score`: Luong "general" score.  `h_t` is mapped
through the bias-free `linear_in` and matched against `h_s` by a batched
matrix product, giving raw scores of shape (batch, tgt_len, src_len). -/
def score (D : ℕ) (W : Tensor2) (h_t h_s : Tensor3) : Tensor3 :=
  fun b t s =>
    ∑ d ∈ Finset.range D, (∑ e ∈ Finset.range D, W d e * h_t b t e) * h_s b s d

/-- The shared output projection: concatenate a context vector with the
query, apply the bias-free `linear_out` (dim x 2 dim) and `tanh`. -/
def outProj (D : ℕ) (W : Tensor2) (ctx q : ℕ → ℝ) : ℕ → ℝ :=
  fun d =>
    Real.tanh (∑ e ∈ Finset.range (2 * D), W d e * (if e < D then ctx e else q (e - D)))

/-- Extended-real exponential as floating point computes it under softmax:
`exp(-inf) = 0`, and `exp x` for finite `x`.  (`⊤` never occurs here.) -/
def expE (x : EReal) : ℝ :=
  if x = ⊥ then 0 else Real.exp x.toReal

/-- Softmax along an axis of extent `S` over extended-real scores, as
`nn.Softmax(dim=-1)` and `F.softmax` behave on scores containing `-inf`. -/
def softmaxE (S : ℕ) (v : ℕ → EReal) : ℕ → ℝ :=
  fun j => expE (v j) / ∑ i ∈ Finset.range S, expE (v i)

/-- Raw scores after the in-place `masked_fill_` with `-inf` at invalid
source positions (used identically by the dirichlet branch on `log_scores`
and by the categorical branch on `scores`).  With no lengths supplied the
scores are untouched. -/
def maskedScores (D : ℕ) (W : Tensor2) (input memory_bank : Tensor3)
    (memory_lengths : Option (ℕ → ℕ)) : ℕ → ℕ → ℕ → EReal :=
  fun b t s =>
    match memory_lengths with
    | none => (score D W input memory_bank b t s : EReal)
    | some len =>
        if sequence_mask len b s then (score D W input memory_bank b t s : EReal)
        else (⊥ : EReal)

/-- The categorical branch of `forward`: `scores = self.sm(scores)` after
the `-inf` mask, giving the deterministic attention weights. -/
def catCAlign (S D : ℕ) (W : Tensor2) (input memory_bank : Tensor3)
    (memory_lengths : Option (ℕ → ℕ)) : Tensor3 :=
  fun b t s => softmaxE S (maskedScores D W input memory_bank memory_lengths b t) s

/-- The dirichlet branch of `forward` (dead code behind the categorical
assertion): `log_scores` after `masked_fill_(1 - mask, -inf)`. -/
def dirMaskedLogScores (D : ℕ) (W : Tensor2) (input memory_bank : Tensor3)
    (memory_lengths : Option (ℕ → ℕ)) : ℕ → ℕ → ℕ → EReal :=
  maskedScores D W input memory_bank memory_lengths

/-- The dirichlet branch of `forward` (dead code behind the categorical
assertion): `scores = self.scoresF(log_scores)` followed by
`masked_fill_(1 - mask, math.exp(-10))`, the Dirichlet concentration
parameters. -/
def dirMaskedAlpha (D : ℕ) (W : Tensor2) (scoresF : ℝ → ℝ)
    (input memory_bank : Tensor3) (memory_lengths : Option (ℕ → ℕ)) : Tensor3 :=
  fun b t s =>
    match memory_lengths with
    | none => scoresF (score D W input memory_bank b t s)
    | some len =>
        if sequence_mask len b s then scoresF (score D W input memory_bank b t s)
        else Real.exp (-10)

/-- The dirichlet branch of `forward` (dead code behind the categorical
assertion): `c_align_vectors = F.softmax(log_scores, dim=-1)` computed from
the masked pre-nonlinearity log scores. -/
def dirCAlign (S D : ℕ) (W : Tensor2) (input memory_bank : Tensor3)
    (memory_lengths : Option (ℕ → ℕ)) : Tensor3 :=
  fun b t s => softmaxE S (dirMaskedLogScores D W input memory_bank memory_lengths b t) s

/-- `attns.scatter_(3, attns_id, 1)` on a zero tensor with an index tensor
whose last axis has extent 1: a one-hot vector at the drawn index per
`(sample, batch, target)` cell. -/
def scatterOneHot (idx : ℕ → ℕ → ℕ → ℕ) : Tensor4 :=
  fun k n t s => if s = idx k n t then 1 else 0

/-- `log_alpha.unsqueeze(0).expand(K, N, T, S)`. -/
def expandK (x : Tensor3) : Tensor4 :=
  fun _k n t s => x n t s

/-- `gather(3, attns_id).squeeze(3)` with an index tensor whose last axis
has extent 1. -/
def gather3 (src : Tensor4) (idx : ℕ → ℕ → ℕ → ℕ) : Tensor3 :=
  fun k n t => src k n t (idx k n t)

/-- The two shapes of value `sample_attn` can return: a bare sample tensor
(dirichlet) or a pair of one-hot samples and their log-probabilities
(categorical). -/
inductive AttnSample where
  | single (attns : Tensor4)
  | withLogProbs (attns : Tensor4) (sample_log_probs : Tensor3)

/-- `VariationalAttention.sample_attn`.  Dispatch on `params.dist_type`:

* `"dirichlet"` (with the dead `SAD` branch disabled, as in the source):
  the reparameterized raw draws `dirDraw` are zeroed at invalid positions by
  `masked_fill_(1 - mask, 0)`; a `None` mask makes that call a `TypeError`,
  and a `None` `alpha` fails attribute access.
* `"categorical"`: indices `catDraw` drawn per `(sample, batch, target)`
  cell are scattered into one-hot vectors, and the per-sample
  log-probabilities are gathered from the expanded `log_alpha` at the drawn
  indices.  The post-sampling `masked_fill_` is commented out in the source
  and therefore absent here.
* `"none"`: the branch body is `pass`, after which the shared
  `return attns` reads the never-assigned local `attns`.
* anything else: `raise Exception("Unsupported dist")`. -/
def sample_attn (params : ParamsIn) (n_samples : ℕ)
    (lengths : Option (ℕ → ℕ)) (mask : Option (ℕ → ℕ → Bool))
    (catDraw : ℕ → ℕ → ℕ → ℕ) (dirDraw : Tensor4) : Except Err AttnSample :=
  if params.dist_type = "dirichlet" then
    match params.alpha, mask with
    | none, _ => Except.error Err.attributeError
    | some _, none => Except.error Err.typeError
    | some _, some m =>
        Except.ok (AttnSample.single (fun k n t s => if m n s then dirDraw k n t s else 0))
  else if params.dist_type = "categorical" then
    match params.alpha, params.log_alpha with
    | some _, some log_alpha =>
        Except.ok (AttnSample.withLogProbs (scatterOneHot catDraw)
          (gather3 (expandK log_alpha) catDraw))
    | _, _ => Except.error Err.attributeError
  else if params.dist_type = "none" then
    Except.error Err.unboundLocal
  else
    Except.error Err.unsupportedDist

/-- The remainder of `forward` after the prior distribution branch chose
the deterministic weights `c_align_vectors` and the prior parameters
`p_alpha`: deterministic context and `h_c`, the sampling dispatch, the
sampled context and `h_y`, and the one-step versus full-sequence exit
(the full-sequence exit is `assert (False)`). -/
def forwardRest (S D : ℕ) (mode : String) (use_prior : Bool) (n_samples : ℕ)
    (p_dist_type : String) (linear_out : Tensor2) (one_step : Bool)
    (input memory_bank : Tensor3) (memory_lengths : Option (ℕ → ℕ))
    (q_scores : Option ParamsIn)
    (catDraw : ℕ → ℕ → ℕ → ℕ) (dirDraw : Tensor4)
    (c_align_vectors : Tensor3) (p_alpha : Tensor3) : Except Err Output :=
  let context_c : Tensor3 := fun b t d =>
    ∑ s ∈ Finset.range S, c_align_vectors b t s * memory_bank b s d
  let h_c : Tensor3 := fun b t d => outProj D linear_out (context_c b t) (input b t) d
  let sampled : Except Err (Option Tensor4 × Option Tensor3) :=
    if mode = "sample" then
      match q_scores with
      | none => Except.error Err.assertionError
      | some q =>
          if use_prior then Except.error Err.assertionError
          else if q.dist_type = "categorical" then
            match sample_attn q n_samples memory_lengths
                (memory_lengths.map sequence_mask) catDraw dirDraw with
            | Except.ok (AttnSample.withLogProbs attns slp) => Except.ok (some attns, some slp)
            | Except.ok (AttnSample.single _) => Except.error Err.typeError
            | Except.error e => Except.error e
          else
            Except.error Err.typeError
    else if mode = "enum" then Except.ok (none, none)
    else Except.error Err.unboundLocal
  match sampled with
  | Except.error e => Except.error e
  | Except.ok (q_sample, sample_log_probs) =>
      let context_y : Tensor4 :=
        match q_sample with
        | some y => fun k n t d => ∑ s ∈ Finset.range S, y k n t s * memory_bank n s d
        | none => fun k n _t d => memory_bank n k d
      let hyK : ℕ :=
        match q_sample with
        | some _ => n_samples
        | none => S
      let h_y : Tensor4 := fun k n t d =>
        outProj D linear_out (fun e => context_y k n t e) (fun e => input n t e) d
      if one_step then
        let q_out : Option ParamsOut :=
          match q_scores with
          | none => none
          | some q =>
              some { dist_type := q.dist_type
                     alpha := q.alpha.map (fun a => fun n s => a n 0 s)
                     samples := q_sample.map (fun y => fun k n s => y k n 0 s)
                     sample_log_probs := sample_log_probs.map (fun l => fun k n => l k n 0) }
        let p_out : ParamsOut :=
          { dist_type := p_dist_type
            alpha := some (fun n s => p_alpha n 0 s)
            samples := none
            sample_log_probs := none }
        Except.ok
          { h_y := fun k n d => h_y k n 0 d
            h_c := fun n d => h_c n 0 d
            c_align_vectors := fun n s => c_align_vectors n 0 s
            dist_q := q_out
            dist_p := p_out
            hyK := hyK }
      else
        Except.error Err.assertionError

/-- `VariationalAttention.forward`.  `one_step` records whether the query
arrived without a time axis (`input.dim() == 2`); in that case the source
promotes the query and the supplied posterior parameters to a unit-length
time axis, so all target indices used on the one-step path are `0`.
The `aeq` dimension checks come first, then the
`assert (self.p_dist_type == 'categorical')`, then the distribution-type
branch chain (the dirichlet and log_normal branches are dead behind that
assertion; a type outside the chain would leave `p_scores` unbound). -/
def forward (S D : ℕ) (cfg : Cfg) (one_step : Bool)
    (input memory_bank : Tensor3) (memory_lengths : Option (ℕ → ℕ))
    (q_scores : Option ParamsIn)
    (catDraw : ℕ → ℕ → ℕ → ℕ) (dirDraw : Tensor4) : Except Err Output :=
  if cfg.dim = D then
    if cfg.p_dist_type = "categorical" then
      if cfg.p_dist_type = "dirichlet" then
        forwardRest S D cfg.mode cfg.use_prior cfg.n_samples cfg.p_dist_type
          cfg.linear_out one_step input memory_bank memory_lengths q_scores
          catDraw dirDraw
          (dirCAlign S D cfg.linear_in input memory_bank memory_lengths)
          (dirMaskedAlpha D cfg.linear_in cfg.scoresF input memory_bank memory_lengths)
      else if cfg.p_dist_type = "log_normal" then
        Except.error Err.unsupportedDist
      else if cfg.p_dist_type = "categorical" then
        forwardRest S D cfg.mode cfg.use_prior cfg.n_samples cfg.p_dist_type
          cfg.linear_out one_step input memory_bank memory_lengths q_scores
          catDraw dirDraw
          (catCAlign S D cfg.linear_in input memory_bank memory_lengths)
          (catCAlign S D cfg.linear_in input memory_bank memory_lengths)
      else
        Except.error Err.unboundLocal
    else
      Except.error Err.assertionError
  else
    Except.error Err.shapeMismatch

/-- Projection: the posterior samples carried inside the returned
`DistInfo`, when the call completed. -/
def qSamples (r : Except Err Output) : Option Tensor3 :=
  match r with
  | Except.ok o =>
      match o.dist_q with
      | some q => q.samples
      | none => none
  | Except.error _ => none

/-- Projection: one entry of the returned posterior samples. -/
def qSampleAt (r : Except Err Output) (k n s : ℕ) : Option ℝ :=
  (qSamples r).map (fun f => f k n s)

/-- Projection: one entry of the `sample_log_probs` returned by
`sample_attn` on its categorical branch. -/
def slpAt (r : Except Err AttnSample) (k n t : ℕ) : Option ℝ :=
  match r with
  | Except.ok (AttnSample.withLogProbs _ slp) => some (slp k n t)
  | _ => none

/-- Projection: one entry of the returned deterministic attention weights. -/
def cAlignAt (r : Except Err Output) (n s : ℕ) : Option ℝ :=
  match r with
  | Except.ok o => some (o.c_align_vectors n s)
  | Except.error _ => none

/-- Projection: the sum of the returned deterministic attention weights
along the source axis. -/
def cAlignSum (S : ℕ) (r : Except Err Output) (n : ℕ) : Option ℝ :=
  match r with
  | Except.ok o => some (∑ s ∈ Finset.range S, o.c_align_vectors n s)
  | Except.error _ => none

/-- Projection: the extent of the leading sample axis of the returned
`h_y`. -/
def hyKof (r : Except Err Output) : Option ℕ :=
  match r with
  | Except.ok o => some o.hyK
  | Except.error _ => none

/-- Projection: one entry of the returned `h_y`. -/
def hyAt (r : Except Err Output) (k n d : ℕ) : Option ℝ :=
  match r with
  | Except.ok o => some (o.h_y k n d)
  | Except.error _ => none

/-- `F.softplus`, the default score nonlinearity. -/
def softplusR (x : ℝ) : ℝ :=
  Real.log (1 + Real.exp x)

/-- Concrete zero tensors for witness instances. -/
def zero2 : Tensor2 := fun _ _ => 0

def zero3 : Tensor3 := fun _ _ _ => 0

def zero4 : Tensor4 := fun _ _ _ _ => 0

/-- Concrete enum-mode configuration for witness instances. -/
def cfgEnumW : Cfg :=
  initVA 1 "categorical" "categorical" false softplusR 1 "enum" zero2 zero2

/-- Concrete sample-mode configuration for witness instances. -/
def cfgSampleW : Cfg :=
  initVA 1 "categorical" "categorical" false softplusR 1 "sample" zero2 zero2

/-- Concrete log_normal-prior configuration. -/
def cfgLogNormalW : Cfg :=
  initVA 1 "log_normal" "categorical" false softplusR 1 "sample" zero2 zero2

/-- Concrete dirichlet-prior configuration (the constructor default). -/
def cfgDirW : Cfg :=
  initVA 1 "dirichlet" "dirichlet" false softplusR 1 "sample" zero2 zero2

/-- Concrete valid-length vector: every example has valid length 2. -/
def lenTwoW : ℕ → ℕ := fun _ => 2

/-- Concrete valid-length vector: every example has valid length 1. -/
def lenOneW : ℕ → ℕ := fun _ => 1

/-- Concrete posterior alpha putting all probability mass on source
position 2. -/
def alphaMass2W : Tensor3 := fun _ _ s => if s = 2 then 1 else 0

/-- Concrete posterior alpha putting all probability mass on source
position 0. -/
def alphaMass0W : Tensor3 := fun _ _ s => if s = 0 then 1 else 0

/-- Concrete categorical posterior bundle with mass on position 2. -/
def qMass2W : ParamsIn :=
  { dist_type := "categorical", alpha := some alphaMass2W, log_alpha := some zero3 }

/-- Concrete categorical posterior bundle with mass on position 0. -/
def qMass0W : ParamsIn :=
  { dist_type := "categorical", alpha := some alphaMass0W, log_alpha := some zero3 }

/-- Concrete sampler always drawing index 2. -/
def drawTwoW : ℕ → ℕ → ℕ → ℕ := fun _ _ _ => 2

/-- Concrete sampler always drawing index 0. -/
def drawZeroW : ℕ → ℕ → ℕ → ℕ := fun _ _ _ => 0

/-- Concrete `dist_type = "none"` bundle. -/
def pNoneW : ParamsIn :=
  { dist_type := "none", alpha := none, log_alpha := none }

/-- Concrete unsupported bundle (`"foo"`). -/
def pFooW : ParamsIn :=
  { dist_type := "foo", alpha := some zero3, log_alpha := some zero3 }

/-- Concrete unsupported bundle (`"log_normal"`). -/
def pLogNormalW : ParamsIn :=
  { dist_type := "log_normal", alpha := some zero3, log_alpha := some zero3 }

end

noncomputable section

lemma expE_bot : expE (⊥ : EReal) = 0 := by
  unfold expE
  rw [if_pos rfl]

lemma expE_nonneg (x : EReal) : 0 ≤ expE x := by
  unfold expE
  split
  · exact le_refl 0
  · exact (Real.exp_pos _).le

lemma expE_pos_of_ne_bot (x : EReal) (hx : x ≠ ⊥) : 0 < expE x := by
  unfold expE
  rw [if_neg hx]
  exact Real.exp_pos _

lemma softmaxE_sum_eq_one (S : ℕ) (v : ℕ → EReal) (i : ℕ) (hi : i < S)
    (hv : v i ≠ ⊥) :
    ∑ j ∈ Finset.range S, softmaxE S v j = 1 := by
  have hpos : 0 < ∑ j ∈ Finset.range S, expE (v j) :=
    lt_of_lt_of_le (expE_pos_of_ne_bot (v i) hv)
      (Finset.single_le_sum (fun j _ => expE_nonneg (v j)) (Finset.mem_range.mpr hi))
  unfold softmaxE
  rw [← Finset.sum_div]
  exact div_self (ne_of_gt hpos)

lemma softmaxE_masked (S : ℕ) (v : ℕ → EReal) (j : ℕ) (hv : v j = ⊥) :
    softmaxE S v j = 0 := by
  unfold softmaxE
  rw [hv, expE_bot, zero_div]

lemma sequence_mask_false (len : ℕ → ℕ) (b s : ℕ) (h : len b ≤ s) :
    sequence_mask len b s = false := by
  unfold sequence_mask
  simp only [decide_eq_false_iff_not]
  omega

lemma sequence_mask_true (len : ℕ → ℕ) (b s : ℕ) (h : s < len b) :
    sequence_mask len b s = true := by
  unfold sequence_mask
  simp only [decide_eq_true_eq]
  exact h

lemma maskedScores_bot (D : ℕ) (W : Tensor2) (input memory_bank : Tensor3)
    (len : ℕ → ℕ) (b t s : ℕ) (h : len b ≤ s) :
    maskedScores D W input memory_bank (some len) b t s = ⊥ := by
  show (if sequence_mask len b s then ((score D W input memory_bank b t s : ℝ) : EReal)
    else (⊥ : EReal)) = ⊥
  rw [sequence_mask_false len b s h]
  rfl

lemma maskedScores_ne_bot (D : ℕ) (W : Tensor2) (input memory_bank : Tensor3)
    (len : ℕ → ℕ) (b t s : ℕ) (h : s < len b) :
    maskedScores D W input memory_bank (some len) b t s ≠ ⊥ := by
  show (if sequence_mask len b s then ((score D W input memory_bank b t s : ℝ) : EReal)
    else (⊥ : EReal)) ≠ ⊥
  rw [sequence_mask_true len b s h]
  simp only [if_true]
  exact EReal.coe_ne_bot _

/-- Success characterization used to reduce completing `forward` calls:
under these hypotheses the one-step call takes the categorical branch and
returns, and its deterministic weights are `catCAlign` squeezed at the unit
time axis. -/
lemma forward_cAlignAt (S D : ℕ) (cfg : Cfg) (input memory_bank : Tensor3)
    (lens : Option (ℕ → ℕ)) (q_scores : Option ParamsIn)
    (catDraw : ℕ → ℕ → ℕ → ℕ) (dirDraw : Tensor4)
    (hdim : cfg.dim = D) (hp : cfg.p_dist_type = "categorical")
    (hok : cfg.mode = "enum" ∨
      (cfg.mode = "sample" ∧ cfg.use_prior = false ∧
        ∃ a la, q_scores = some ⟨"categorical", some a, some la⟩)) :
    ∀ n s, cAlignAt (forward S D cfg true input memory_bank lens q_scores catDraw dirDraw) n s
      = some (catCAlign S D cfg.linear_in input memory_bank lens n 0 s) := by
  intro n s
  unfold forward
  rw [if_pos hdim, if_pos hp, hp]
  rw [if_neg (by decide : ¬ ("categorical" = "dirichlet"))]
  rw [if_neg (by decide : ¬ ("categorical" = "log_normal"))]
  rw [if_pos rfl]
  rcases hok with hmode | ⟨hmode, hup, a, la, hq⟩
  · rw [hmode]
    rfl
  · subst hq
    rw [hmode, hup]
    rfl

lemma forward_cAlignSum (S D : ℕ) (cfg : Cfg) (input memory_bank : Tensor3)
    (lens : Option (ℕ → ℕ)) (q_scores : Option ParamsIn)
    (catDraw : ℕ → ℕ → ℕ → ℕ) (dirDraw : Tensor4)
    (hdim : cfg.dim = D) (hp : cfg.p_dist_type = "categorical")
    (hok : cfg.mode = "enum" ∨
      (cfg.mode = "sample" ∧ cfg.use_prior = false ∧
        ∃ a la, q_scores = some ⟨"categorical", some a, some la⟩)) :
    ∀ n, cAlignSum S (forward S D cfg true input memory_bank lens q_scores catDraw dirDraw) n
      = some (∑ s ∈ Finset.range S, catCAlign S D cfg.linear_in input memory_bank lens n 0 s) := by
  intro n
  unfold forward
  rw [if_pos hdim, if_pos hp, hp]
  rw [if_neg (by decide : ¬ ("categorical" = "dirichlet"))]
  rw [if_neg (by decide : ¬ ("categorical" = "log_normal"))]
  rw [if_pos rfl]
  rcases hok with hmode | ⟨hmode, hup, a, la, hq⟩
  · rw [hmode]
    rfl
  · subst hq
    rw [hmode, hup]
    rfl

/-- C1: for every completing one-step `forward` call with `memory_lengths`
supplied (prior type categorical, matching feature dimension, and a
sampling configuration that does not fail), the returned deterministic
attention weights `c_align_vectors` sum to 1 along the source axis and are
exactly 0 at every source position at or beyond the valid length of the
example, provided the example has at least one valid position within the
source extent. -/
theorem c1_c_align_sums_to_one_and_zero_past_length
    (S D : ℕ) (cfg : Cfg) (input memory_bank : Tensor3) (len : ℕ → ℕ)
    (q_scores : Option ParamsIn) (catDraw : ℕ → ℕ → ℕ → ℕ) (dirDraw : Tensor4)
    (b : ℕ)
    (hdim : cfg.dim = D) (hp : cfg.p_dist_type = "categorical")
    (hok : cfg.mode = "enum" ∨
      (cfg.mode = "sample" ∧ cfg.use_prior = false ∧
        ∃ a la, q_scores = some ⟨"categorical", some a, some la⟩))
    (hS : 0 < S) (hb : 0 < len b) :
    cAlignSum S (forward S D cfg true input memory_bank (some len) q_scores catDraw dirDraw) b
      = some 1 ∧
    ∀ s, len b ≤ s →
      cAlignAt (forward S D cfg true input memory_bank (some len) q_scores catDraw dirDraw) b s
        = some 0 := by
  constructor
  · rw [forward_cAlignSum S D cfg input memory_bank (some len) q_scores catDraw dirDraw
      hdim hp hok b]
    refine congrArg some ?_
    unfold catCAlign
    exact softmaxE_sum_eq_one S _ 0 hS
      (maskedScores_ne_bot D cfg.linear_in input memory_bank len b 0 0 hb)
  · intro s hs
    rw [forward_cAlignAt S D cfg input memory_bank (some len) q_scores catDraw dirDraw
      hdim hp hok b s]
    refine congrArg some ?_
    unfold catCAlign
    exact softmaxE_masked S _ s
      (maskedScores_bot D cfg.linear_in input memory_bank len b 0 s hs)

/-- Witness for C1 at a concrete input: source extent 2, valid length 1,
enum mode. -/
theorem c1_witness :
    (0 : ℕ) < 2 ∧ (0 : ℕ) < lenOneW 0 ∧
    (cAlignSum 2 (forward 2 1 cfgEnumW true zero3 zero3 (some lenOneW) none drawZeroW zero4) 0
        = some 1 ∧
      ∀ s, lenOneW 0 ≤ s →
        cAlignAt (forward 2 1 cfgEnumW true zero3 zero3 (some lenOneW) none drawZeroW zero4) 0 s
          = some 0) := by
  refine ⟨by decide, by decide, ?_⟩
  exact c1_c_align_sums_to_one_and_zero_past_length 2 1 cfgEnumW zero3 zero3 lenOneW
    none drawZeroW zero4 0 rfl rfl (Or.inl rfl) (by decide) (by decide)

/-- C2: on the categorical branch of `sample_attn`, every returned
`sample_log_probs` entry equals `log_alpha` evaluated at the index drawn
for that sample, independently per sample (exact gather correctness). -/
theorem c2_sample_log_probs_equal_log_alpha_at_drawn_index
    (params : ParamsIn) (a la : Tensor3) (n_samples : ℕ)
    (lengths : Option (ℕ → ℕ)) (mask : Option (ℕ → ℕ → Bool))
    (catDraw : ℕ → ℕ → ℕ → ℕ) (dirDraw : Tensor4)
    (hd : params.dist_type = "categorical") (ha : params.alpha = some a)
    (hla : params.log_alpha = some la) :
    ∀ k n t,
      slpAt (sample_attn params n_samples lengths mask catDraw dirDraw) k n t
        = some (la n t (catDraw k n t)) := by
  intro k n t
  unfold sample_attn
  rw [hd, ha, hla]
  rw [if_neg (by decide : ¬ ("categorical" = "dirichlet"))]
  rw [if_pos rfl]
  rfl

/-- Witness for C2 at a concrete input: the drawn index is 0 everywhere
and `log_alpha` is the zero tensor. -/
theorem c2_witness :
    qMass0W.dist_type = "categorical" ∧
    slpAt (sample_attn qMass0W 3 none none drawZeroW zero4) 2 1 0 = some (zero3 1 0 0) := by
  refine ⟨rfl, ?_⟩
  exact c2_sample_log_probs_equal_log_alpha_at_drawn_index qMass0W alphaMass0W zero3 3
    none none drawZeroW zero4 rfl rfl rfl 2 1 0

/-- C7: dispatch of `sample_attn` on `params.dist_type`.  The `"none"` case
does not short-circuit to a no-op: its branch body is `pass` and the shared
`return attns` then reads the never-assigned local `attns`, an
UnboundLocalError.  Any type outside the dirichlet, categorical, none set
fails with the unsupported-distribution exception (shown at `"foo"` and at
`"log_normal"`). -/
theorem c7_none_is_unbound_local_and_others_unsupported :
    sample_attn pNoneW 1 none none drawZeroW zero4 = Except.error Err.unboundLocal ∧
    sample_attn pFooW 1 none none drawZeroW zero4 = Except.error Err.unsupportedDist ∧
    sample_attn pLogNormalW 1 none none drawZeroW zero4 = Except.error Err.unsupportedDist := by
  exact ⟨rfl, rfl, rfl⟩

end

noncomputable section

/-- Reduction of a completing sample-mode one-step `forward` call: the
posterior samples returned inside `DistInfo` are the one-hot scatter of the
drawn indices, squeezed at the unit time axis.  The source never re-masks
the supplied posterior parameters before sampling, and the post-sampling
mask of the categorical branch is commented out. -/
lemma forward_qSampleAt (S D : ℕ) (cfg : Cfg) (input memory_bank : Tensor3)
    (lens : Option (ℕ → ℕ)) (a la : Tensor3)
    (catDraw : ℕ → ℕ → ℕ → ℕ) (dirDraw : Tensor4)
    (hdim : cfg.dim = D) (hp : cfg.p_dist_type = "categorical")
    (hmode : cfg.mode = "sample") (hup : cfg.use_prior = false) :
    ∀ k n s,
      qSampleAt (forward S D cfg true input memory_bank lens
          (some ⟨"categorical", some a, some la⟩) catDraw dirDraw) k n s
        = some (if s = catDraw k n 0 then 1 else 0) := by
  intro k n s
  unfold forward
  rw [if_pos hdim, if_pos hp, hp]
  rw [if_neg (by decide : ¬ ("categorical" = "dirichlet"))]
  rw [if_neg (by decide : ¬ ("categorical" = "log_normal"))]
  rw [if_pos rfl]
  rw [hmode, hup]
  rfl

/-- C3 as stated is false on the code: a categorical sampling call reached
through `forward` with `memory_lengths` supplied can return a sample whose
hot index is a padded position.  Concretely: source extent 3, valid length
2, a supplied posterior `alpha` putting all its mass on the padded position
2 (so the sampler can only draw index 2, shown by the last conjunct), and
the returned sample has value 1 at padded position 2. -/
theorem c3_counterexample_sample_at_padded_position :
    qSampleAt (forward 3 1 cfgSampleW true zero3 zero3 (some lenTwoW)
        (some qMass2W) drawTwoW zero4) 0 0 2 = some 1 ∧
    lenTwoW 0 = 2 ∧
    alphaMass2W 0 0 2 = 1 := by
  exact ⟨rfl, rfl, rfl⟩

/-- C3 amended: every sample drawn by the categorical path of `forward` is
a one-hot vector (value 1 exactly at the drawn index, 0 elsewhere); its hot
index lies within the valid length of the example provided the supplied
posterior `alpha` carries no mass at padded positions (as the masked prior
does) and the sampler only draws indices of positive probability.  Without
that guarantee on the supplied `q_scores` the hot index can be a padded
position, since `forward` never masks `q_scores` and the post-sampling mask
is disabled in the source. -/
theorem c3_one_hot_and_valid_under_masked_alpha
    (S D : ℕ) (cfg : Cfg) (input memory_bank : Tensor3) (len : ℕ → ℕ)
    (a la : Tensor3) (catDraw : ℕ → ℕ → ℕ → ℕ) (dirDraw : Tensor4)
    (hdim : cfg.dim = D) (hp : cfg.p_dist_type = "categorical")
    (hmode : cfg.mode = "sample") (hup : cfg.use_prior = false)
    (hsupp : ∀ k n t, 0 < a n t (catDraw k n t))
    (hmask : ∀ n t s, len n ≤ s → a n t s = 0) :
    ∀ k n s,
      qSampleAt (forward S D cfg true input memory_bank (some len)
          (some ⟨"categorical", some a, some la⟩) catDraw dirDraw) k n s
        = some (if s = catDraw k n 0 then 1 else 0) ∧
      catDraw k n 0 < len n := by
  intro k n s
  refine ⟨forward_qSampleAt S D cfg input memory_bank (some len) a la catDraw dirDraw
    hdim hp hmode hup k n s, ?_⟩
  by_contra hlt
  have hge : len n ≤ catDraw k n 0 := Nat.le_of_not_lt hlt
  have hzero := hmask n 0 (catDraw k n 0) hge
  have hpos := hsupp k n 0
  rw [hzero] at hpos
  exact lt_irrefl 0 hpos

/-- Witness for the amended C3 at a concrete input: source extent 2, valid
length 1, posterior mass concentrated on the valid position 0, sampler
drawing 0. -/
theorem c3_witness :
    cfgSampleW.mode = "sample" ∧
    (qSampleAt (forward 2 1 cfgSampleW true zero3 zero3 (some lenOneW)
        (some ⟨"categorical", some alphaMass0W, some zero3⟩) drawZeroW zero4) 0 0 1
        = some (if 1 = drawZeroW 0 0 0 then 1 else 0) ∧
      drawZeroW 0 0 0 < lenOneW 0) := by
  refine ⟨rfl, ?_⟩
  exact c3_one_hot_and_valid_under_masked_alpha 2 1 cfgSampleW zero3 zero3 lenOneW
    alphaMass0W zero3 drawZeroW zero4 rfl rfl rfl rfl
    (fun k n t => by simp only [alphaMass0W, drawZeroW]; norm_num)
    (fun n t s hs => by
      simp only [lenOneW] at hs
      simp only [alphaMass0W]
      rw [if_neg (by omega)])
    0 0 1

/-- Every full-sequence exit of `forwardRest` is an error: the branch that
would reconcile full-sequence shapes opens with `assert (False)`. -/
lemma forwardRest_full_seq_errors (S D : ℕ) (mode : String) (up : Bool)
    (ns : ℕ) (pdt : String) (lo : Tensor2) (input memory_bank : Tensor3)
    (lens : Option (ℕ → ℕ)) (q : Option ParamsIn)
    (cd : ℕ → ℕ → ℕ → ℕ) (dd : Tensor4) (ca pa : Tensor3) :
    ∃ e, forwardRest S D mode up ns pdt lo false input memory_bank lens q cd dd ca pa
      = Except.error e := by
  unfold forwardRest
  dsimp only
  split
  · exact ⟨_, rfl⟩
  · exact ⟨Err.assertionError, rfl⟩

/-- C4 as stated is false on the code: a full-sequence call (query carrying
a time axis) that survives every earlier check still fails the
`assert (False)` guarding the full-sequence reconciliation branch, so the
full-sequence calling convention never completes and returns. -/
theorem c4_counterexample_full_sequence_asserts :
    forward 2 1 cfgEnumW false zero3 zero3 (some lenOneW) none drawZeroW zero4
      = Except.error Err.assertionError := by
  exact rfl

/-- C4 amended: the claimed shape symmetry is vacuous because `forward` in
full-sequence form never returns: every full-sequence call ends in an error
(the reconciliation branch itself is `assert (False)`, and every earlier
exit is also an error); only the one-step convention can return outputs. -/
theorem c4_full_sequence_never_returns :
    ∀ (S D : ℕ) (cfg : Cfg) (input memory_bank : Tensor3)
      (lens : Option (ℕ → ℕ)) (q : Option ParamsIn)
      (cd : ℕ → ℕ → ℕ → ℕ) (dd : Tensor4),
      ∃ e, forward S D cfg false input memory_bank lens q cd dd = Except.error e := by
  intro S D cfg input memory_bank lens q cd dd
  unfold forward
  repeat' split
  all_goals first
    | apply forwardRest_full_seq_errors
    | exact ⟨_, rfl⟩

/-- C5 as stated is false on the code: a `forward` call configured with
`p_dist_type = "log_normal"` fails the earlier
`assert (self.p_dist_type == 'categorical')` with an assertion error; the
dedicated unsupported-distribution raise for log_normal is never reached,
and an assertion error is a different failure than the
unsupported-distribution error. -/
theorem c5_counterexample_assertion_not_unsupported :
    forward 1 1 cfgLogNormalW true zero3 zero3 none none drawZeroW zero4
      = Except.error Err.assertionError ∧
    (Err.assertionError = Err.unsupportedDist) = False := by
  exact ⟨rfl, eq_false (by decide)⟩

/-- C5 amended: every `forward` call with matching feature dimension on a
component configured with `p_dist_type = "log_normal"` fails the
categorical assertion (an assertion error, not the unsupported-distribution
exception) before any score computation. -/
theorem c5_log_normal_fails_assertion
    (S D : ℕ) (cfg : Cfg) (os : Bool) (input memory_bank : Tensor3)
    (lens : Option (ℕ → ℕ)) (q : Option ParamsIn)
    (cd : ℕ → ℕ → ℕ → ℕ) (dd : Tensor4)
    (hdim : cfg.dim = D) (hp : cfg.p_dist_type = "log_normal") :
    forward S D cfg os input memory_bank lens q cd dd
      = Except.error Err.assertionError := by
  unfold forward
  rw [if_pos hdim, hp]
  rw [if_neg (by decide : ¬ ("log_normal" = "categorical"))]

/-- Witness for the amended C5 at a concrete input. -/
theorem c5_witness :
    cfgLogNormalW.p_dist_type = "log_normal" ∧
    forward 3 1 cfgLogNormalW true zero3 zero3 (some lenTwoW) none drawZeroW zero4
      = Except.error Err.assertionError := by
  refine ⟨rfl, ?_⟩
  exact c5_log_normal_fails_assertion 3 1 cfgLogNormalW true zero3 zero3 (some lenTwoW)
    none drawZeroW zero4 rfl rfl

/-- C6 as stated is false on the code: a `forward` call configured with
`p_dist_type = "dirichlet"` (the constructor default) and `memory_lengths`
supplied fails the categorical assertion before performing any masking. -/
theorem c6_counterexample_dirichlet_forward_asserts :
    forward 3 1 cfgDirW true zero3 zero3 (some lenTwoW) none drawZeroW zero4
      = Except.error Err.assertionError := by
  exact rfl

/-- C6 amended: `forward` with a dirichlet prior fails the categorical
assertion, so the claimed behaviour never runs through `forward`; in the
dirichlet branch itself (dead code behind that assertion) the claim holds:
at every masked source position the log-scores are set to `-inf` before the
softmax (so the softmax weight there is 0) and the post-nonlinearity
concentration parameter is set to the constant `exp (-10)`, which is
strictly positive and never zero or negative. -/
theorem c6_dirichlet_branch_masking
    (S D : ℕ) (W : Tensor2) (sF : ℝ → ℝ) (input memory_bank : Tensor3)
    (len : ℕ → ℕ) (b t s : ℕ) (h : len b ≤ s) :
    dirMaskedLogScores D W input memory_bank (some len) b t s = ⊥ ∧
    dirMaskedAlpha D W sF input memory_bank (some len) b t s = Real.exp (-10) ∧
    0 < dirMaskedAlpha D W sF input memory_bank (some len) b t s ∧
    dirCAlign S D W input memory_bank (some len) b t s = 0 := by
  have h1 : dirMaskedLogScores D W input memory_bank (some len) b t s = ⊥ :=
    maskedScores_bot D W input memory_bank len b t s h
  have h2 : dirMaskedAlpha D W sF input memory_bank (some len) b t s = Real.exp (-10) := by
    show (if sequence_mask len b s then sF (score D W input memory_bank b t s)
      else Real.exp (-10)) = Real.exp (-10)
    rw [sequence_mask_false len b s h]
    rfl
  refine ⟨h1, h2, ?_, ?_⟩
  · rw [h2]
    exact Real.exp_pos _
  · unfold dirCAlign
    exact softmaxE_masked S _ s h1

/-- Witness for the amended C6 at a concrete input: valid length 2, masked
position 2 on a source of extent 3. -/
theorem c6_witness :
    lenTwoW 0 ≤ 2 ∧
    (dirMaskedLogScores 1 zero2 zero3 zero3 (some lenTwoW) 0 0 2 = ⊥ ∧
     dirMaskedAlpha 1 zero2 softplusR zero3 zero3 (some lenTwoW) 0 0 2 = Real.exp (-10) ∧
     0 < dirMaskedAlpha 1 zero2 softplusR zero3 zero3 (some lenTwoW) 0 0 2 ∧
     dirCAlign 3 1 zero2 zero3 zero3 (some lenTwoW) 0 0 2 = 0) := by
  refine ⟨by decide, ?_⟩
  exact c6_dirichlet_branch_masking 3 1 zero2 softplusR zero3 zero3 lenTwoW 0 0 2 (by decide)

/-- C8: every one-step `forward` call in enum mode completes with exactly
`source_len` pseudo-samples (the leading axis of `h_y` has extent `S`), and
the sampled context entering the output projection for pseudo-sample `k` is
the raw memory vector at source position `k` (identical for every target
step), with no attention-weight scaling applied before the projection. -/
theorem c8_enum_source_len_pseudo_samples_unscaled
    (S D : ℕ) (cfg : Cfg) (input memory_bank : Tensor3)
    (lens : Option (ℕ → ℕ)) (q : Option ParamsIn)
    (cd : ℕ → ℕ → ℕ → ℕ) (dd : Tensor4)
    (hdim : cfg.dim = D) (hp : cfg.p_dist_type = "categorical")
    (hmode : cfg.mode = "enum") :
    hyKof (forward S D cfg true input memory_bank lens q cd dd) = some S ∧
    ∀ k n d,
      hyAt (forward S D cfg true input memory_bank lens q cd dd) k n d
        = some (outProj D cfg.linear_out (fun e => memory_bank n k e)
            (fun e => input n 0 e) d) := by
  constructor
  · unfold forward
    rw [if_pos hdim, if_pos hp, hp]
    rw [if_neg (by decide : ¬ ("categorical" = "dirichlet"))]
    rw [if_neg (by decide : ¬ ("categorical" = "log_normal"))]
    rw [if_pos rfl, hmode]
    rfl
  · intro k n d
    unfold forward
    rw [if_pos hdim, if_pos hp, hp]
    rw [if_neg (by decide : ¬ ("categorical" = "dirichlet"))]
    rw [if_neg (by decide : ¬ ("categorical" = "log_normal"))]
    rw [if_pos rfl, hmode]
    rfl

/-- Witness for C8 at a concrete input: source extent 3. -/
theorem c8_witness :
    cfgEnumW.mode = "enum" ∧
    hyKof (forward 3 1 cfgEnumW true zero3 zero3 (some lenTwoW) none drawZeroW zero4)
      = some 3 := by
  refine ⟨rfl, ?_⟩
  exact (c8_enum_source_len_pseudo_samples_unscaled 3 1 cfgEnumW zero3 zero3
    (some lenTwoW) none drawZeroW zero4 rfl rfl rfl).1

/-- C9: after the `aeq` dimension checks, `forward` asserts that the
configured prior distribution type is categorical: with any other
`p_dist_type` (including the constructor default dirichlet) the call fails
that assertion before computing attention scores, and a call can only
return a value when `p_dist_type = "categorical"`. -/
theorem c9_forward_requires_categorical_prior :
    (∀ (S D : ℕ) (cfg : Cfg) (os : Bool) (input memory_bank : Tensor3)
        (lens : Option (ℕ → ℕ)) (q : Option ParamsIn)
        (cd : ℕ → ℕ → ℕ → ℕ) (dd : Tensor4),
      cfg.dim = D → cfg.p_dist_type ≠ "categorical" →
      forward S D cfg os input memory_bank lens q cd dd
        = Except.error Err.assertionError) ∧
    (∀ (S D : ℕ) (cfg : Cfg) (os : Bool) (input memory_bank : Tensor3)
        (lens : Option (ℕ → ℕ)) (q : Option ParamsIn)
        (cd : ℕ → ℕ → ℕ → ℕ) (dd : Tensor4) (out : Output),
      forward S D cfg os input memory_bank lens q cd dd = Except.ok out →
      cfg.p_dist_type = "categorical") := by
  constructor
  · intro S D cfg os input memory_bank lens q cd dd hdim hp
    unfold forward
    rw [if_pos hdim, if_neg hp]
  · intro S D cfg os input memory_bank lens q cd dd out h
    by_cases hp : cfg.p_dist_type = "categorical"
    · exact hp
    · exfalso
      unfold forward at h
      by_cases hdim : cfg.dim = D
      · rw [if_pos hdim, if_neg hp] at h
        exact Except.noConfusion h
      · rw [if_neg hdim] at h
        exact Except.noConfusion h

/-- Witness for C9 at a concrete input: the constructor-default dirichlet
configuration fails the assertion. -/
theorem c9_witness :
    (cfgDirW.p_dist_type = "categorical") = False ∧
    forward 2 1 cfgDirW true zero3 zero3 none none drawZeroW zero4
      = Except.error Err.assertionError := by
  refine ⟨eq_false (by decide), ?_⟩
  exact c9_forward_requires_categorical_prior.1 2 1 cfgDirW true zero3 zero3 none none
    drawZeroW zero4 rfl (by decide)

/-- C10: the constructor stores the configured posterior distribution type
under the misspelled field `q_dist_tyqe`, which no part of `forward` ever
reads (posterior dispatch uses the `dist_type` carried inside the supplied
`q_scores` bundle); hence two components identical except for the
`q_dist_type` constructor argument produce identical `forward` results on
every input and every draw. -/
theorem c10_q_dist_type_constructor_argument_unused
    (dim : ℕ) (p q1 q2 : String) (up : Bool) (sF : ℝ → ℝ) (ns : ℕ)
    (mode : String) (li lo : Tensor2) (S D : ℕ) (os : Bool)
    (input memory_bank : Tensor3) (lens : Option (ℕ → ℕ))
    (q : Option ParamsIn) (cd : ℕ → ℕ → ℕ → ℕ) (dd : Tensor4) :
    forward S D (initVA dim p q1 up sF ns mode li lo) os input memory_bank lens q cd dd
      = forward S D (initVA dim p q2 up sF ns mode li lo) os input memory_bank lens q cd dd := by
  rfl

end
